import Mathlib

/-!
Shallow embedding of the resilient scraping error-handling layer of
`room302studio/hexagram_news` (the module bundled into `src/server/api/scrape.js`,
lines 149-679: `ErrorTypes`, `CircuitBreaker`, `ScrapingError`, `classifyError`,
`retryWithBackoff`, `ScrapingErrorHandler.wrap` / `wrapBatch`).

Modelling conventions:
 - JavaScript exceptions are modelled explicitly: a fallible JS expression is a
   Lean function into `Except Thrown α`, where a `.error` value is a thrown /
   rejected JS value.  A promise that never rejects corresponds to a function
   that provably always returns `.ok`.
 - Values thrown by caller-supplied operations are modelled by the inductive
   `Thrown`, covering `null`/`undefined`, primitives, plain objects with the
   duck-typed fields the module inspects (`message`, `code`, `response.status`,
   `content`, `canRetry`), runtime `TypeError`s, and `ScrapingError` instances.
   Reading a property off `null`/`undefined` throws a `TypeError`; calling
   `toLowerCase` on a non-string field throws a `TypeError`.
 - `Date.now()` is threaded as an explicit `now : Nat` parameter; all the
   timestamps taken during one `wrap` call are collapsed to that instant.
 - The backoff delay (`baseDelay * 2^attempt * (0.5 + random*0.5)`) and the
   `setTimeout` suspension only affect wall-clock timing, never the value or
   state semantics, so they are not modelled.
 - Logging (`logError`, `console.error`) is guarded by `try/catch` at every
   call site in the source and cannot affect control flow or results; it is
   omitted.
 - The `md5`-based `operationId` is a log-correlation token never inspected by
   the module; envelope metadata keeps the `domain` and `timestamp` fields.
-/

/-- The `ErrorTypes` enumeration of the module (nine string constants). -/
inductive ErrorType where
  | http_error
  | paywall
  | javascript_required
  | network_error
  | dns_error
  | timeout
  | parsing_error
  | rate_limited
  | unknown
deriving DecidableEq, Repr

/-- `ScrapingError.determineRetryability`: an error type is retryable iff it is
one of `NETWORK_ERROR`, `TIMEOUT`, `RATE_LIMITED`. -/
def determineRetryability (t : ErrorType) : Bool :=
  [ErrorType.network_error, ErrorType.timeout, ErrorType.rate_limited].contains t

/-- The list checked before `circuitBreaker.recordFailure(domain)` in
`ScrapingErrorHandler.wrap`: `[HTTP_ERROR, NETWORK_ERROR, DNS_ERROR]`. -/
def tripsCircuitBreaker (t : ErrorType) : Bool :=
  [ErrorType.http_error, ErrorType.network_error, ErrorType.dns_error].contains t

/-- A duck-typed field of a thrown JS value, as far as the module inspects it:
absent (or `null`/`undefined`), a string, or some non-string value (on which
`toLowerCase` would throw; `truthy` records its truthiness). -/
inductive JSField where
  | absent
  | strF (s : String)
  | nonString (truthy : Bool)
deriving DecidableEq, Repr

/-- A JS value thrown by an operation (or by the module itself), restricted to
the shape the module can observe.  `obj` carries the duck-typed fields
`message`, `code`, `response` (collapsed to its numeric `status`, `none` when
the response or its status is absent), `content`, and `canRetry` (its
truthiness, `none` when absent).  `scrapingError` is an instance of the
module's `ScrapingError` class.  `typeError` is a runtime `TypeError` raised
by an invalid property access or method call. -/
inductive Thrown where
  | nullish
  | prim (truthy : Bool)
  | typeError (msg : String)
  | obj (message code : JSField) (response : Option Nat) (content : JSField)
        (canRetry : Option Bool)
  | scrapingError (type : ErrorType) (message : String) (original : Thrown)
deriving DecidableEq, Repr

namespace Thrown

/-- JS truthiness of a thrown value (`if (error)`). -/
def truthy : Thrown → Bool
  | .nullish => false
  | .prim t => t
  | _ => true

/-- The `message` property of a thrown value (property read never throws on a
non-nullish receiver; primitives and errors without the field give `absent`;
a `ScrapingError` and a `TypeError` carry their string message). -/
def msgField : Thrown → JSField
  | .obj m _ _ _ _ => m
  | .typeError s => .strF s
  | .scrapingError _ m _ => .strF m
  | _ => .absent

/-- The `code` property of a thrown value. -/
def codeField : Thrown → JSField
  | .obj _ c _ _ _ => c
  | _ => .absent

/-- The `response?.status` chain on a thrown value: `some s` when a response
object with a numeric `status` is attached. -/
def responseField : Thrown → Option Nat
  | .obj _ _ r _ _ => r
  | _ => none

/-- The `content` property of a thrown value. -/
def contentField : Thrown → JSField
  | .obj _ _ _ c _ => c
  | _ => .absent

end Thrown

/-- Evaluating `error.canRetry` followed by its truthiness test, as
`retryWithBackoff` does with `!error.canRetry`.  On `null`/`undefined` the
property read itself throws a `TypeError`; a `ScrapingError` carries the flag
derived from its type; any value without the property reads as `undefined`,
i.e. falsy. -/
def getCanRetry : Thrown → Except Thrown Bool
  | .nullish => .error (.typeError "Cannot read properties of null (reading canRetry)")
  | .prim _ => .ok false
  | .typeError _ => .ok false
  | .obj _ _ _ _ cr => .ok (cr.getD false)
  | .scrapingError t _ _ => .ok (determineRetryability t)

/-- Case-insensitive substring test, modelling JS `String.prototype.includes`
on lowercased haystacks. -/
def isSubstr (needle hay : String) : Bool :=
  (List.range (hay.toList.length + 1)).any fun i =>
    needle.toList.isPrefixOf (hay.toList.drop i)

/-- The `PAYWALL_INDICATORS` list of the module. -/
def PAYWALL_INDICATORS : List String :=
  ["subscribe", "subscription", "paywall", "premium content", "sign in to read",
   "register to continue", "unlock this article", "become a member",
   "this content is for subscribers", "continue reading with", "free trial",
   "monthly plan", "access denied"]

/-- The `JS_REQUIRED_INDICATORS` list of the module. -/
def JS_REQUIRED_INDICATORS : List String :=
  ["please enable javascript", "javascript is disabled", "requires javascript",
   "js is required", "enable js to view", "javascript must be enabled",
   "this site needs javascript"]

/-- Result shape of `classifyError`: `{type, message}`. -/
structure Classification where
  type : ErrorType
  message : String
deriving DecidableEq, Repr

/-- JS `toLowerCase`, implemented structurally over the character list so
that concrete evaluations reduce definitionally (the library
`String.toLower` recurses on byte positions and does not). -/
def jsToLower (s : String) : String := String.mk (s.data.map Char.toLower)

/-- JS `trim`, implemented structurally for the same reason. -/
def jsTrim (s : String) : String :=
  String.mk (((s.data.dropWhile Char.isWhitespace).reverse.dropWhile
    Char.isWhitespace).reverse)

/-- Evaluating `field?.toLowerCase() || ''` on a duck-typed field: absent or
nullish gives `''`; a string is lowercased; a non-string receiver throws. -/
def fieldLower : JSField → Except Thrown String
  | .absent => .ok ""
  | .strF s => .ok (jsToLower s)
  | .nonString _ => .error (.typeError "toLowerCase is not a function")

/-- The `response?.status` branch of `classifyError` (first-match-wins over
429 / 403 / 404 / >=500 / >=400; a falsy status of 0 is skipped). -/
def statusClassification (response : Option Nat) : Option Classification :=
  match response with
  | none => none
  | some s =>
    if s = 0 then none
    else if s = 429 then some ⟨.rate_limited, "Rate limited (" ++ toString s ++ ")"⟩
    else if s = 403 then some ⟨.http_error, "Access forbidden (" ++ toString s ++ ")"⟩
    else if s = 404 then some ⟨.http_error, "Page not found (" ++ toString s ++ ")"⟩
    else if 500 ≤ s then some ⟨.http_error, "Server error (" ++ toString s ++ ")"⟩
    else if 400 ≤ s then some ⟨.http_error, "Client error (" ++ toString s ++ ")"⟩
    else none

/-- The network/DNS/timeout branch of `classifyError` (`if (error) { ... }`):
lowercases `error.message` and `error.code` (which can throw on non-string
fields) and tests the fixed indicator sets, in source order. -/
def errorClassification (error : Option Thrown) : Except Thrown (Option Classification) :=
  match error with
  | none => .ok none
  | some e =>
    if e.truthy then
      match fieldLower e.msgField with
      | .error t => .error t
      | .ok msg =>
        match fieldLower e.codeField with
        | .error t => .error t
        | .ok code =>
          if isSubstr "getaddrinfo" msg || code == "enotfound" || code == "enodata" then
            .ok (some ⟨.dns_error, "DNS resolution failed"⟩)
          else if isSubstr "connect" msg || isSubstr "network" msg ||
              code == "econnrefused" || code == "econnreset" || code == "etimedout" then
            .ok (some ⟨.network_error, "Network connection failed"⟩)
          else if isSubstr "timeout" msg || code == "etimeout" then
            .ok (some ⟨.timeout, "Request timeout"⟩)
          else
            .ok none
    else .ok none

/-- The content-based branch of `classifyError` (`if (content) { ... }`):
paywall indicators, JS-required indicators, then the minimal-content
heuristic.  A truthy non-string content throws on `toLowerCase`. -/
def contentClassification (content : JSField) : Except Thrown (Option Classification) :=
  match content with
  | .absent => .ok none
  | .nonString truthy =>
    if truthy then .error (.typeError "toLowerCase is not a function") else .ok none
  | .strF s =>
    if s = "" then .ok none
    else
      let cl := jsToLower s
      if PAYWALL_INDICATORS.any (fun ind => isSubstr ind cl) then
        .ok (some ⟨.paywall, "Paywall detected"⟩)
      else if JS_REQUIRED_INDICATORS.any (fun ind => isSubstr ind cl) then
        .ok (some ⟨.javascript_required, "JavaScript required for content rendering"⟩)
      else if (jsTrim s).length < 100 && !(isSubstr "<!doctype" cl) then
        .ok (some ⟨.javascript_required, "Minimal content detected - likely requires JavaScript"⟩)
      else
        .ok none

/-- The fallback classification: `{type: UNKNOWN, message: error?.message ||
'Unknown error occurred'}`.  (A truthy non-string `message` would become the
message value verbatim; that case is unreachable from `classifyError` because
the error branch has already lowercased the field, and is rendered by a
placeholder.) -/
def defaultClassification (error : Option Thrown) : Classification :=
  match error with
  | none => ⟨.unknown, "Unknown error occurred"⟩
  | some e =>
    match e.msgField with
    | .strF s => if s = "" then ⟨.unknown, "Unknown error occurred"⟩ else ⟨.unknown, s⟩
    | .absent => ⟨.unknown, "Unknown error occurred"⟩
    | .nonString t => if t then ⟨.unknown, "[non-string message]"⟩
                      else ⟨.unknown, "Unknown error occurred"⟩

/-- `classifyError(error, response, content)`: status rules first, then
error-based rules, then content-based rules, then the UNKNOWN fallback.
Throws (returns `.error`) exactly when a consulted duck-typed field is a
non-string on which `toLowerCase` is called. -/
def classifyError (error : Option Thrown) (response : Option Nat) (content : JSField) :
    Except Thrown Classification :=
  match statusClassification response with
  | some c => .ok c
  | none =>
    match errorClassification error with
    | .error t => .error t
    | .ok (some c) => .ok c
    | .ok none =>
      match contentClassification content with
      | .error t => .error t
      | .ok (some c) => .ok c
      | .ok none => .ok (defaultClassification error)

/-- Association-list lookup modelling `Map.prototype.get`. -/
def mapGet (m : List (String × Nat)) (d : String) : Option Nat :=
  (m.find? (fun p => p.1 == d)).map (fun p => p.2)

/-- Association-list update modelling `Map.prototype.set`. -/
def mapSet : List (String × Nat) → String → Nat → List (String × Nat)
  | [], d, v => [(d, v)]
  | (k, x) :: rest, d, v =>
    if k == d then (k, v) :: rest else (k, x) :: mapSet rest d v

/-- Association-list removal modelling `Map.prototype.delete`. -/
def mapDel (m : List (String × Nat)) (d : String) : List (String × Nat) :=
  m.filter (fun p => !(p.1 == d))

/-- The `CircuitBreaker` class: per-domain failure counts and last-failure
timestamps, with `failureThreshold = 5` and `timeoutMs = 60000` by default. -/
structure CircuitBreaker where
  failures : List (String × Nat) := []
  lastFailure : List (String × Nat) := []
  failureThreshold : Nat := 5
  timeoutMs : Nat := 60000
deriving DecidableEq, Repr

namespace CircuitBreaker

/-- `this.failures.get(domain) || 0`. -/
def failCount (cb : CircuitBreaker) (d : String) : Nat :=
  (mapGet cb.failures d).getD 0

/-- `this.lastFailure.get(domain) || 0`. -/
def lastFail (cb : CircuitBreaker) (d : String) : Nat :=
  (mapGet cb.lastFailure d).getD 0

/-- `canAttempt(domain)`: below the threshold always true; at/above the
threshold true only when `Date.now() - lastFailure > timeoutMs`. -/
def canAttempt (cb : CircuitBreaker) (now : Nat) (d : String) : Bool :=
  if cb.failureThreshold ≤ cb.failCount d then
    decide (cb.timeoutMs < now - cb.lastFail d)
  else
    true

/-- `recordFailure(domain)`: increment the count and stamp `Date.now()`. -/
def recordFailure (cb : CircuitBreaker) (now : Nat) (d : String) : CircuitBreaker :=
  { cb with
    failures := mapSet cb.failures d (cb.failCount d + 1)
    lastFailure := mapSet cb.lastFailure d now }

/-- `recordSuccess(domain)`: delete both entries. -/
def recordSuccess (cb : CircuitBreaker) (d : String) : CircuitBreaker :=
  { cb with
    failures := mapDel cb.failures d
    lastFailure := mapDel cb.lastFailure d }

end CircuitBreaker

/-- A fresh breaker with the default parameters (the module-level
`new CircuitBreaker()`). -/
def breaker0 : CircuitBreaker := {}

/-- A sequence of consecutive `recordFailure(d)` calls at the given
timestamps, with no intervening `recordSuccess` or reset. -/
def recordFailures (cb : CircuitBreaker) (d : String) (ts : List Nat) : CircuitBreaker :=
  ts.foldl (fun s t => s.recordFailure t d) cb

/-- The `ScrapingError` class: `type`, `message`, the original thrown value
(`Thrown.nullish` models the `null` default), with `canRetry` derived from
the type by `determineRetryability`. -/
structure ScrapingError where
  type : ErrorType
  message : String
  original : Thrown := .nullish
deriving DecidableEq, Repr

/-- `this.canRetry = this.determineRetryability()`. -/
def ScrapingError.canRetry (e : ScrapingError) : Bool :=
  determineRetryability e.type

/-- The fields of `ScrapingError.toJSON()` that later code inspects
(`type`, `message`, `canRetry`; the captured original error name/message and
the timestamp metadata are not consulted anywhere). -/
structure ErrorJSON where
  type : ErrorType
  message : String
  canRetry : Bool
deriving DecidableEq, Repr

/-- `toJSON()` projection. -/
def ScrapingError.toJSON (e : ScrapingError) : ErrorJSON :=
  ⟨e.type, e.message, e.canRetry⟩

/-- A URL as the module observes it: its raw text and, when `new URL(url)`
succeeds, its hostname. -/
structure Url where
  text : String := ""
  hostname : Option String := none
deriving DecidableEq, Repr

/-- `extractDomain(url)`: the hostname, or the `'unknown-domain'` sentinel
when URL parsing fails. -/
def extractDomain (u : Url) : String :=
  u.hostname.getD "unknown-domain"

/-- One iteration slice of `retryWithBackoff`'s `for` loop, indexed by the
current `attempt` and the number of loop iterations still allowed after this
one (`remaining = maxRetries - attempt`).  The operation is modelled as a
function of the invocation index, so a stateful operation ("fails twice then
succeeds") is a deterministic sequence of behaviours.  Returns the settled
result together with the number of operation invocations performed.  On the
final allowed attempt the error breaks the loop without consulting
`canRetry` (the `attempt === maxRetries` disjunct short-circuits); otherwise
`!error.canRetry` is evaluated, which itself throws on a nullish error, and a
falsy flag breaks the loop, rethrowing the last error. -/
def retryAux {α : Type} (op : Nat → Except Thrown α) (attempt : Nat) :
    Nat → Except Thrown α × Nat
  | 0 =>
    match op attempt with
    | .ok v => (.ok v, 1)
    | .error e => (.error e, 1)
  | remaining + 1 =>
    match op attempt with
    | .ok v => (.ok v, 1)
    | .error e =>
      match getCanRetry e with
      | .error t => (.error t, 1)
      | .ok false => (.error e, 1)
      | .ok true =>
        let r := retryAux op (attempt + 1) remaining
        (r.1, r.2 + 1)

/-- `retryWithBackoff(operation, maxRetries)`: attempts `0..maxRetries`,
retrying only while the thrown error's `canRetry` is truthy.  The backoff
delay only affects timing and is not modelled. -/
def retryWithBackoff {α : Type} (op : Nat → Except Thrown α) (maxRetries : Nat) :
    Except Thrown α × Nat :=
  retryAux op 0 maxRetries

/-- The `catch` block wrapped around each operation invocation inside
`wrap`'s retry closure: reads `error.response` / `error.content` (a throwing
read on a nullish error), classifies, and throws a `ScrapingError` carrying
the classification and the original error.  A `TypeError` raised by the
classification itself propagates instead. -/
def innerCatch (e : Thrown) : Except Thrown Thrown :=
  if e = .nullish then
    .error (.typeError "Cannot read properties of null (reading response)")
  else
    match classifyError (some e) e.responseField e.contentField with
    | .error t => .error t
    | .ok cls => .ok (.scrapingError cls.type cls.message e)

/-- The retry closure passed to `retryWithBackoff` by `wrap`: run the
caller's operation; convert any thrown value through `innerCatch` and rethrow
the resulting `ScrapingError` (or the `TypeError` it raised). -/
def wrappedOp {α : Type} (op : Nat → Except Thrown α) (n : Nat) : Except Thrown α :=
  match op n with
  | .ok v => .ok v
  | .error e =>
    match innerCatch e with
    | .ok se => .error se
    | .error t => .error t

/-- The top of `wrap`'s outer `catch` block: if the caught value is not a
`ScrapingError` instance, classify it (response and content defaulted to
`null` / `''`) and wrap it.  A throw inside this `catch` would escape `wrap`
altogether. -/
def ensureScrapingError (e : Thrown) : Except Thrown ScrapingError :=
  match e with
  | .scrapingError t m o => .ok ⟨t, m, o⟩
  | _ =>
    match classifyError (some e) none (.strF "") with
    | .error t => .error t
    | .ok cls => .ok ⟨cls.type, cls.message, e⟩

/-- The options record of `ScrapingErrorHandler` relevant to value/state
semantics (`baseDelay` only shapes timing; `logErrors` only gates the guarded
logger). -/
structure HandlerOptions where
  maxRetries : Nat := 3
  enableCircuitBreaker : Bool := true
deriving DecidableEq, Repr

/-- Default options (`new ScrapingErrorHandler()`). -/
def handlerDefaults : HandlerOptions := {}

/-- Envelope metadata: `{domain, timestamp}` (the md5 `operationId` is an
uninspected correlation token and is omitted). -/
structure EnvMeta where
  domain : String
  timestamp : Nat
deriving DecidableEq, Repr

/-- The `OperationEnvelope` returned by `wrap`: `{success: true, data,
metadata}` or `{success: false, error, metadata}`. -/
inductive Envelope (α : Type) where
  | success (data : α) (metadata : EnvMeta)
  | failure (error : ErrorJSON) (metadata : EnvMeta)
deriving DecidableEq, Repr

/-- The observable outcome of one `wrap` call: the returned envelope, the
circuit-breaker state afterwards, how many times the caller-supplied
operation was invoked, and how many times `recordFailure` was invoked. -/
structure WrapOutcome (α : Type) where
  envelope : Envelope α
  breaker : CircuitBreaker
  opCalls : Nat
  recordFailureCalls : Nat
deriving DecidableEq, Repr

/-- The message of the circuit-breaker short-circuit `ScrapingError`. -/
def breakerOpenMsg : String :=
  "Circuit breaker open - domain temporarily blocked due to repeated failures"

/-- `ScrapingErrorHandler.wrap(url, scrapingOperation, context)`.  The
`context` argument flows only into the try/catch-guarded logger and cannot
affect the result; it is threaded for the signature's sake.  The result is
`.error` exactly when an exception escapes `wrap` (i.e. its promise
rejects). -/
def wrap {α : Type} (opts : HandlerOptions) (cb : CircuitBreaker) (now : Nat)
    (url : Url) (op : Nat → Except Thrown α) (_context : List (String × String)) :
    Except Thrown (WrapOutcome α) :=
  let domain := extractDomain url
  let tryResult : Except Thrown α × Nat :=
    if opts.enableCircuitBreaker && !(cb.canAttempt now domain) then
      (.error (.scrapingError .http_error breakerOpenMsg .nullish), 0)
    else
      retryWithBackoff (wrappedOp op) opts.maxRetries
  match tryResult with
  | (.ok v, n) =>
    let cb1 := if opts.enableCircuitBreaker then cb.recordSuccess domain else cb
    .ok ⟨.success v ⟨domain, now⟩, cb1, n, 0⟩
  | (.error e, n) =>
    match ensureScrapingError e with
    | .error t => .error t
    | .ok se =>
      let doRecord := opts.enableCircuitBreaker && tripsCircuitBreaker se.type
      let cb1 := if doRecord then cb.recordFailure now domain else cb
      .ok ⟨.failure se.toJSON ⟨domain, now⟩, cb1, n, if doRecord then 1 else 0⟩

/-- A JS number as produced by the `successRate` division: `NaN` (0/0),
`Infinity` (x/0 with x > 0), or a finite value.  Finite values are modelled
as exact rationals; double rounding is irrelevant to the claims, which only
concern the division formula and the zero-denominator case. -/
inductive JsNum where
  | nan
  | inf
  | val (q : ℚ)
deriving DecidableEq, Repr

/-- JS division of two non-negative integers (`a / b`). -/
def jsDiv (a b : Nat) : JsNum :=
  if b = 0 then (if a = 0 then .nan else .inf) else .val ((a : ℚ) / (b : ℚ))

/-- Partition a list into successive slices of `c` items, as the
`for (let i = 0; i < len; i += concurrency)` loop with `slice(i, i + c)`
does.  Structured with a fuel argument equal to the list length; with
`c = 0` the JS loop never terminates (the promise never settles), which is
outside this model — all batch theorems assume a positive concurrency. -/
def chunksAux {α : Type} (c : Nat) : Nat → List α → List (List α)
  | _, [] => []
  | 0, _ => []
  | fuel + 1, l => l.take c :: chunksAux c fuel (l.drop c)

/-- The concurrency groups of a batch. -/
def chunks {α : Type} (c : Nat) (l : List α) : List (List α) :=
  chunksAux c l.length l

/-- One element of the `urlsAndOperations` argument of `wrapBatch` (the
`context` member flows only into `wrap`'s guarded logger). -/
structure BatchItem (α : Type) where
  url : Url
  operation : Nat → Except Thrown α


/-- The options record of `wrapBatch`, with its defaults. -/
structure BatchOptions where
  concurrency : Nat := 5
  continueOnError : Bool := true
  collectErrors : Bool := true
deriving DecidableEq, Repr

/-- Default batch options. -/
def batchDefaults : BatchOptions := {}

/-- An entry pushed onto `results` or `errors`: `{url, ...envelope}`. -/
structure BatchEntry (α : Type) where
  url : Url
  envelope : Envelope α
deriving DecidableEq, Repr

/-- The mutable state visible to the batch callbacks: the two push targets
and the module-level circuit breaker. -/
structure BatchState (α : Type) where
  results : List (BatchEntry α)
  errors : List (BatchEntry α)
  breaker : CircuitBreaker

/-- The async callback `wrapBatch` maps over one batch item: await `wrap`,
push the envelope onto `results` or (when `collectErrors`) `errors`, and on a
failure envelope with `continueOnError === false` throw a fresh `Error` —
after the pushes.  The `Except` component is that callback promise's own
settlement; a `wrap` rejection (provably impossible) would reject the
callback before any push. -/
def batchCallback {α : Type} (opts : HandlerOptions) (now : Nat) (bopts : BatchOptions)
    (st : BatchState α) (item : BatchItem α) : BatchState α × Except Thrown Unit :=
  match wrap opts st.breaker now item.url item.operation [] with
  | .error t => (st, .error t)
  | .ok out =>
    let st1 : BatchState α := { st with breaker := out.breaker }
    match out.envelope with
    | .success d m =>
      ({ st1 with results := st1.results ++ [⟨item.url, .success d m⟩] }, .ok ())
    | .failure e m =>
      let st2 : BatchState α :=
        if bopts.collectErrors then
          { st1 with errors := st1.errors ++ [⟨item.url, .failure e m⟩] }
        else st1
      if bopts.continueOnError then
        (st2, .ok ())
      else
        (st2, .error (.obj (.strF ("Batch operation failed for " ++ item.url.text ++
          ": " ++ e.message)) .absent none .absent none))

/-- `await Promise.allSettled(batchPromises)`: every callback runs to its own
settlement and the group barrier absorbs each rejection into a settled
status, which the surrounding code then discards — `allSettled` itself never
rejects.  Intra-group interleaving is modelled as sequential execution in
input order; no claim depends on completion order. -/
def processGroup {α : Type} (opts : HandlerOptions) (now : Nat) (bopts : BatchOptions)
    (st : BatchState α) (group : List (BatchItem α)) : BatchState α :=
  group.foldl (fun s item => (batchCallback opts now bopts s item).1) st

/-- The value returned by `wrapBatch`, plus the final module-level breaker
state threaded explicitly. -/
structure BatchResult (α : Type) where
  success : Bool
  results : List (BatchEntry α)
  errors : List (BatchEntry α)
  total : Nat
  succeeded : Nat
  failed : Nat
  successRate : JsNum
  breaker : CircuitBreaker

/-- `ScrapingErrorHandler.wrapBatch(urlsAndOperations, options)`: sequential
concurrency groups, each awaited with `Promise.allSettled`, then the summary
object with `successRate = results.length / urlsAndOperations.length` (JS
division, hence `NaN` on an empty batch).  The `Except` layer is `wrapBatch`'s
own promise: after the `allSettled` barriers nothing in the function body can
throw, so the `.error` branch is provably never taken. -/
def wrapBatch {α : Type} (opts : HandlerOptions) (cb : CircuitBreaker) (now : Nat)
    (items : List (BatchItem α)) (bopts : BatchOptions) :
    Except Thrown (BatchResult α) :=
  let final := (chunks bopts.concurrency items).foldl
    (processGroup opts now bopts) ⟨[], [], cb⟩
  .ok ⟨decide (0 < final.results.length), final.results, final.errors,
    items.length, final.results.length, final.errors.length,
    jsDiv final.results.length items.length, final.breaker⟩

/-! Helper lemmas. -/

theorem mapGet_set_self (m : List (String × Nat)) (d : String) (v : Nat) :
    mapGet (mapSet m d v) d = some v := by
  induction m with
  | nil => simp [mapGet, mapSet, List.find?]
  | cons p rest ih =>
    obtain ⟨k, x⟩ := p
    by_cases h : k = d
    · simp [mapSet, mapGet, List.find?, h]
    · have hb : (k == d) = false := beq_eq_false_iff_ne.mpr h
      simp only [mapSet, hb, Bool.false_eq_true, if_false]
      rw [mapGet, List.find?_cons_of_neg _ (by simp [hb])]
      exact ih

theorem CircuitBreaker.failCount_recordFailure_self (cb : CircuitBreaker) (now : Nat)
    (d : String) : (cb.recordFailure now d).failCount d = cb.failCount d + 1 := by
  simp [CircuitBreaker.recordFailure, CircuitBreaker.failCount, mapGet_set_self]

theorem CircuitBreaker.lastFail_recordFailure_self (cb : CircuitBreaker) (now : Nat)
    (d : String) : (cb.recordFailure now d).lastFail d = now := by
  simp [CircuitBreaker.recordFailure, CircuitBreaker.lastFail, mapGet_set_self]

theorem CircuitBreaker.threshold_recordFailure (cb : CircuitBreaker) (now : Nat)
    (d : String) : (cb.recordFailure now d).failureThreshold = cb.failureThreshold := rfl

theorem CircuitBreaker.timeoutMs_recordFailure (cb : CircuitBreaker) (now : Nat)
    (d : String) : (cb.recordFailure now d).timeoutMs = cb.timeoutMs := rfl

theorem recordFailures_failCount (d : String) (ts : List Nat) :
    ∀ cb : CircuitBreaker, (recordFailures cb d ts).failCount d = cb.failCount d + ts.length := by
  induction ts with
  | nil => intro cb; simp [recordFailures]
  | cons t rest ih =>
    intro cb
    show (recordFailures (cb.recordFailure t d) d rest).failCount d = _
    rw [ih, CircuitBreaker.failCount_recordFailure_self]
    simp [List.length_cons]
    omega

theorem recordFailures_lastFail (d : String) :
    ∀ (ts : List Nat) (h : ts ≠ []) (cb : CircuitBreaker),
      (recordFailures cb d ts).lastFail d = ts.getLast h := by
  intro ts
  induction ts with
  | nil => intro h; exact absurd rfl h
  | cons t rest ih =>
    intro h cb
    cases rest with
    | nil =>
      show (recordFailures (cb.recordFailure t d) d []).lastFail d = _
      simp [recordFailures, CircuitBreaker.lastFail_recordFailure_self, List.getLast]
    | cons t2 rest2 =>
      have hne : (t2 :: rest2) ≠ [] := by simp
      show (recordFailures (cb.recordFailure t d) d (t2 :: rest2)).lastFail d = _
      rw [ih hne]
      exact (List.getLast_cons hne).symm

theorem recordFailures_threshold (d : String) (ts : List Nat) :
    ∀ cb : CircuitBreaker, (recordFailures cb d ts).failureThreshold = cb.failureThreshold := by
  induction ts with
  | nil => intro cb; rfl
  | cons t rest ih => intro cb; exact ih (cb.recordFailure t d)

theorem recordFailures_timeoutMs (d : String) (ts : List Nat) :
    ∀ cb : CircuitBreaker, (recordFailures cb d ts).timeoutMs = cb.timeoutMs := by
  induction ts with
  | nil => intro cb; rfl
  | cons t rest ih => intro cb; exact ih (cb.recordFailure t d)

/-! Claim theorems. -/

/-- C8: a `ScrapingError`'s derived `canRetry` flag is true exactly for the
kinds `NetworkError`, `Timeout`, `RateLimited`, and false for the other six
kinds. -/
theorem determineRetryability_iff (t : ErrorType) :
    determineRetryability t = true ↔
      (t = .network_error ∨ t = .timeout ∨ t = .rate_limited) := by
  cases t <;> simp [determineRetryability]

/-- C2: a domain below the failure threshold is always admissible; after
`failureThreshold` consecutive `recordFailure(d)` calls (at arbitrary
timestamps, no intervening `recordSuccess`/reset) the domain is inadmissible
when checked at the moment of the last failure, and is admissible again
exactly when the elapsed time since the last recorded failure exceeds
`timeoutMs` with no intervening failure. -/
theorem circuitBreaker_admission_spec :
    (∀ (cb : CircuitBreaker) (now : Nat) (d : String),
        cb.failCount d < cb.failureThreshold → cb.canAttempt now d = true)
    ∧ (∀ (cb : CircuitBreaker) (d : String) (ts : List Nat) (h : ts ≠ []),
        ts.length = cb.failureThreshold →
        (recordFailures cb d ts).canAttempt (ts.getLast h) d = false
        ∧ ∀ now : Nat, ((recordFailures cb d ts).canAttempt now d = true ↔
            cb.timeoutMs < now - ts.getLast h)) := by
  constructor
  · intro cb now d hlt
    unfold CircuitBreaker.canAttempt
    rw [if_neg (by omega)]
  · intro cb d ts h hlen
    have hcount : (recordFailures cb d ts).failCount d = cb.failCount d + ts.length :=
      recordFailures_failCount d ts cb
    have hlast : (recordFailures cb d ts).lastFail d = ts.getLast h :=
      recordFailures_lastFail d ts h cb
    have hthr : (recordFailures cb d ts).failureThreshold = cb.failureThreshold :=
      recordFailures_threshold d ts cb
    have htmo : (recordFailures cb d ts).timeoutMs = cb.timeoutMs :=
      recordFailures_timeoutMs d ts cb
    have hge : (recordFailures cb d ts).failureThreshold ≤
        (recordFailures cb d ts).failCount d := by
      rw [hcount, hthr]; omega
    constructor
    · unfold CircuitBreaker.canAttempt
      rw [if_pos hge, hlast, htmo]
      simp [Nat.sub_self]
    · intro now
      unfold CircuitBreaker.canAttempt
      rw [if_pos hge, hlast, htmo]
      exact decide_eq_true_iff

/-- Concrete instantiation of `circuitBreaker_admission_spec` at the default
breaker: fresh domain admissible; after five failures at times 1..5 the
domain is blocked at time 5 and the admissibility at time 70000 reduces to
the elapsed-time comparison. -/
theorem circuitBreaker_admission_spec_witness :
    breaker0.canAttempt 0 "x.com" = true
    ∧ (recordFailures breaker0 "x.com" [1, 2, 3, 4, 5]).canAttempt 5 "x.com" = false
    ∧ ((recordFailures breaker0 "x.com" [1, 2, 3, 4, 5]).canAttempt 70000 "x.com" = true ↔
        breaker0.timeoutMs < 70000 - 5) := by
  refine ⟨circuitBreaker_admission_spec.1 breaker0 0 "x.com" (by decide), ?_, ?_⟩
  · exact (circuitBreaker_admission_spec.2 breaker0 "x.com" [1, 2, 3, 4, 5]
      (by simp) (by decide)).1
  · exact (circuitBreaker_admission_spec.2 breaker0 "x.com" [1, 2, 3, 4, 5]
      (by simp) (by decide)).2 70000

theorem classifyError_of_status {s : Nat} {c : Classification}
    (error : Option Thrown) (content : JSField)
    (h : statusClassification (some s) = some c) :
    classifyError error (some s) content = .ok c := by
  simp [classifyError, h]

/-- C7: when a truthy `response.status` is present, status 429 classifies as
RateLimited, every status in [500,599] as HttpError, and every status in
[400,499] other than 429 as HttpError, regardless of the `error` and
`content` arguments (the status rules run first). -/
theorem classify_status_rules (error : Option Thrown) (content : JSField) (s : Nat) :
    (s = 429 → (classifyError error (some s) content).map Classification.type
        = .ok .rate_limited)
    ∧ (500 ≤ s → s ≤ 599 → (classifyError error (some s) content).map Classification.type
        = .ok .http_error)
    ∧ (400 ≤ s → s ≤ 499 → s ≠ 429 →
        (classifyError error (some s) content).map Classification.type = .ok .http_error) := by
  refine ⟨?_, ?_, ?_⟩
  · intro h429
    subst h429
    have hs : statusClassification (some 429) =
        some ⟨.rate_limited, "Rate limited (" ++ toString 429 ++ ")"⟩ := rfl
    rw [classifyError_of_status error content hs]
    rfl
  · intro h1 h2
    have hs : statusClassification (some s) =
        some ⟨.http_error, "Server error (" ++ toString s ++ ")"⟩ := by
      simp only [statusClassification]
      rw [if_neg (by omega), if_neg (by omega), if_neg (by omega), if_neg (by omega),
        if_pos (by omega)]
    rw [classifyError_of_status error content hs]
    rfl
  · intro h1 h2 h3
    by_cases h403 : s = 403
    · subst h403
      have hs : statusClassification (some 403) =
          some ⟨.http_error, "Access forbidden (" ++ toString 403 ++ ")"⟩ := rfl
      rw [classifyError_of_status error content hs]
      rfl
    · by_cases h404 : s = 404
      · subst h404
        have hs : statusClassification (some 404) =
            some ⟨.http_error, "Page not found (" ++ toString 404 ++ ")"⟩ := rfl
        rw [classifyError_of_status error content hs]
        rfl
      · have hs : statusClassification (some s) =
            some ⟨.http_error, "Client error (" ++ toString s ++ ")"⟩ := by
          simp only [statusClassification]
          rw [if_neg (by omega), if_neg h3, if_neg h403, if_neg h404,
            if_neg (by omega), if_pos (by omega)]
        rw [classifyError_of_status error content hs]
        rfl

/-- Concrete instantiation of `classify_status_rules` at statuses 429, 503
and 404, with a non-empty error and a content value that would throw on
inspection — showing the status rules really do take precedence. -/
theorem classify_status_rules_witness :
    ((classifyError (some (.obj (.nonString true) .absent none .absent none)) (some 429)
        (.nonString true)).map Classification.type = .ok .rate_limited)
    ∧ ((classifyError none (some 503) .absent).map Classification.type = .ok .http_error)
    ∧ ((classifyError none (some 404) .absent).map Classification.type = .ok .http_error) :=
  ⟨(classify_status_rules (some (.obj (.nonString true) .absent none .absent none))
      (.nonString true) 429).1 rfl,
   (classify_status_rules none .absent 503).2.1 (by decide) (by decide),
   (classify_status_rules none .absent 404).2.2 (by decide) (by decide) (by decide)⟩

/-- C5: an operation that throws retryable errors on its first two
invocations and succeeds on the third, run with `maxRetries = 3`, resolves
with the third invocation's value after exactly 3 invocations. -/
theorem retry_two_retryable_then_success (α : Type) (v : α) (e0 e1 : Thrown)
    (h0 : getCanRetry e0 = .ok true) (h1 : getCanRetry e1 = .ok true) :
    retryWithBackoff
      (fun n => if n = 0 then .error e0 else if n = 1 then .error e1 else .ok v) 3
      = (.ok v, 3) := by
  simp [retryWithBackoff, retryAux, h0, h1]

/-- Concrete instantiation of `retry_two_retryable_then_success` with
network errors (a retryable kind) on the first two attempts. -/
theorem retry_two_retryable_then_success_witness :
    retryWithBackoff
      (fun n => if n = 0 then
          .error (.scrapingError .network_error "Network connection failed" .nullish)
        else if n = 1 then
          .error (.scrapingError .network_error "Network connection failed" .nullish)
        else .ok 7) 3
      = (.ok 7, 3) :=
  retry_two_retryable_then_success Nat 7
    (.scrapingError .network_error "Network connection failed" .nullish)
    (.scrapingError .network_error "Network connection failed" .nullish) rfl rfl

/-- C10 (amended): `retryWithBackoff` retries only while the thrown value's
`canRetry` reads truthy.  A first throw whose `canRetry` reads falsy (absent
or false, on a non-nullish value) gives exactly one invocation and rethrows
that very value, for every `maxRetries`.  A first throw of `null`/`undefined`
also gives exactly one invocation, but with `maxRetries > 0` the function
rejects with the `TypeError` raised by reading `canRetry` off the nullish
value instead of the value itself; with `maxRetries = 0` the nullish value is
rethrown.  Conversely a second invocation happens only after a first throw
whose `canRetry` read truthy. -/
theorem retry_nonretryable_single_attempt (α : Type) (op : Nat → Except Thrown α)
    (m : Nat) (e : Thrown) :
    (op 0 = .error e → getCanRetry e = .ok false → retryWithBackoff op m = (.error e, 1))
    ∧ (op 0 = .error .nullish → 0 < m →
        retryWithBackoff op m =
          (.error (.typeError "Cannot read properties of null (reading canRetry)"), 1))
    ∧ (op 0 = .error .nullish → retryWithBackoff op 0 = (.error .nullish, 1))
    ∧ (1 < (retryWithBackoff op m).2 →
        ∃ e1, op 0 = .error e1 ∧ getCanRetry e1 = .ok true ∧ 0 < m) := by
  refine ⟨?_, ?_, ?_, ?_⟩
  · intro hop hcr
    cases m with
    | zero => simp [retryWithBackoff, retryAux, hop]
    | succ k => simp [retryWithBackoff, retryAux, hop, hcr]
  · intro hop hm
    cases m with
    | zero => omega
    | succ k => simp [retryWithBackoff, retryAux, hop, getCanRetry]
  · intro hop
    simp [retryWithBackoff, retryAux, hop]
  · intro hcount
    cases m with
    | zero =>
      exfalso
      unfold retryWithBackoff retryAux at hcount
      cases hop : op 0 <;> simp [hop] at hcount
    | succ k =>
      cases hop : op 0 with
      | ok v =>
        exfalso
        unfold retryWithBackoff retryAux at hcount
        simp [hop] at hcount
      | error e1 =>
        cases hcr : getCanRetry e1 with
        | error t =>
          exfalso
          unfold retryWithBackoff retryAux at hcount
          simp [hop, hcr] at hcount
        | ok b =>
          cases b with
          | false =>
            exfalso
            unfold retryWithBackoff retryAux at hcount
            simp [hop, hcr] at hcount
          | true => exact ⟨e1, rfl, hcr, Nat.succ_pos k⟩

/-- Concrete instantiation of `retry_nonretryable_single_attempt`: a plain
object without a `canRetry` field is thrown once and rethrown unchanged even
with `maxRetries = 3`. -/
theorem retry_nonretryable_single_attempt_witness :
    retryWithBackoff
      (fun _ => (.error (.obj (.strF "boom") .absent none .absent none) : Except Thrown Nat)) 3
      = (.error (.obj (.strF "boom") .absent none .absent none), 1) :=
  (retry_nonretryable_single_attempt Nat
    (fun _ => .error (.obj (.strF "boom") .absent none .absent none)) 3
    (.obj (.strF "boom") .absent none .absent none)).1 rfl rfl

/-- C10 counterexample: an operation that throws `null` (a value without a
`canRetry` property) under the default `maxRetries = 3` is invoked exactly
once, but the promise rejects with the `TypeError` from the `!error.canRetry`
read, not with the thrown `null` itself — so "that value is rethrown" fails. -/
theorem retry_null_not_rethrown_cex :
    retryWithBackoff (fun _ => (.error .nullish : Except Thrown Nat)) 3
      = (.error (.typeError "Cannot read properties of null (reading canRetry)"), 1)
    ∧ Thrown.typeError "Cannot read properties of null (reading canRetry)" ≠ Thrown.nullish := by
  exact ⟨rfl, by decide⟩

theorem retryAux_const_nonretryable {α : Type} (f : Nat → Except Thrown α) (e : Thrown)
    (hf : ∀ n, f n = .error e) (hcr : getCanRetry e = .ok false) :
    ∀ (a m : Nat), retryAux f a m = (.error e, 1) := by
  intro a m
  cases m with
  | zero => simp [retryAux, hf a]
  | succ k => simp [retryAux, hf a, hcr]

/-- The value `fn` rejects with in end-to-end scenario 2:
`{code: 'ENOTFOUND'}`. -/
def enotfoundErr : Thrown := .obj .absent (.strF "ENOTFOUND") none .absent none

/-- The `ScrapingError` that `wrap`'s inner catch builds from
`enotfoundErr`. -/
def dnsScrapingError : Thrown :=
  .scrapingError .dns_error "DNS resolution failed" enotfoundErr

theorem innerCatch_enotfound : innerCatch enotfoundErr = .ok dnsScrapingError := by
  rfl

theorem wrappedOp_enotfound {α : Type} (op : Nat → Except Thrown α)
    (h : ∀ n, op n = .error enotfoundErr) (n : Nat) :
    wrappedOp op n = .error dnsScrapingError := by
  simp [wrappedOp, h n, innerCatch_enotfound]

/-- C6: `wrap` on a url with hostname `x.com` whose operation always rejects
with `{code: 'ENOTFOUND'}` (breaker currently admitting the domain) returns a
failure envelope classified DnsError with `canRetry = false`, invokes the
operation exactly once for every `maxRetries`, and invokes
`recordFailure('x.com')` exactly once. -/
theorem wrap_enotfound_dns (α : Type) (cb : CircuitBreaker) (now maxR : Nat)
    (u : Url) (op : Nat → Except Thrown α) (ctx : List (String × String))
    (hu : u.hostname = some "x.com")
    (hca : cb.canAttempt now "x.com" = true)
    (hop : ∀ n, op n = .error enotfoundErr) :
    wrap ⟨maxR, true⟩ cb now u op ctx =
      .ok ⟨.failure ⟨.dns_error, "DNS resolution failed", false⟩ ⟨"x.com", now⟩,
        cb.recordFailure now "x.com", 1, 1⟩ := by
  have hdom : extractDomain u = "x.com" := by simp [extractDomain, hu]
  have hwo : ∀ n, wrappedOp op n = .error dnsScrapingError := wrappedOp_enotfound op hop
  have hretry : retryWithBackoff (wrappedOp op) maxR = (.error dnsScrapingError, 1) :=
    retryAux_const_nonretryable (wrappedOp op) dnsScrapingError hwo rfl 0 maxR
  simp [wrap, hdom, hca, hretry, ensureScrapingError, dnsScrapingError,
    tripsCircuitBreaker, ScrapingError.toJSON, ScrapingError.canRetry,
    determineRetryability]

/-- Concrete instantiation of `wrap_enotfound_dns` at the default breaker. -/
theorem wrap_enotfound_dns_witness :
    wrap ⟨3, true⟩ breaker0 100 ⟨"https://x.com/a", some "x.com"⟩
      (fun _ => (.error enotfoundErr : Except Thrown Unit)) [] =
      .ok ⟨.failure ⟨.dns_error, "DNS resolution failed", false⟩ ⟨"x.com", 100⟩,
        breaker0.recordFailure 100 "x.com", 1, 1⟩ :=
  wrap_enotfound_dns Unit breaker0 100 3 ⟨"https://x.com/a", some "x.com"⟩
    (fun _ => .error enotfoundErr) [] rfl (by decide) (fun _ => rfl)

/-- C9: when the breaker is open for the url's domain (count at/above
threshold and elapsed time at most `timeoutMs`), `wrap` short-circuits: the
operation is never invoked, the failure envelope's kind is HttpError, and —
because HttpError trips the breaker — `recordFailure` runs once, incrementing
the count and refreshing the last-failure timestamp to `now`, which extends
the open window. -/
theorem wrap_breaker_open_extends (α : Type) (cb : CircuitBreaker) (now maxR : Nat)
    (u : Url) (op : Nat → Except Thrown α) (ctx : List (String × String))
    (hth : cb.failureThreshold ≤ cb.failCount (extractDomain u))
    (helapsed : now - cb.lastFail (extractDomain u) ≤ cb.timeoutMs) :
    wrap ⟨maxR, true⟩ cb now u op ctx =
      .ok ⟨.failure ⟨.http_error, breakerOpenMsg, false⟩ ⟨extractDomain u, now⟩,
        cb.recordFailure now (extractDomain u), 0, 1⟩
    ∧ (cb.recordFailure now (extractDomain u)).failCount (extractDomain u)
        = cb.failCount (extractDomain u) + 1
    ∧ (cb.recordFailure now (extractDomain u)).lastFail (extractDomain u) = now := by
  have hca : cb.canAttempt now (extractDomain u) = false := by
    unfold CircuitBreaker.canAttempt
    rw [if_pos hth]
    simp only [decide_eq_false_iff_not]
    omega
  refine ⟨?_, CircuitBreaker.failCount_recordFailure_self cb now (extractDomain u),
    CircuitBreaker.lastFail_recordFailure_self cb now (extractDomain u)⟩
  simp [wrap, hca, ensureScrapingError, tripsCircuitBreaker,
    ScrapingError.toJSON, ScrapingError.canRetry, determineRetryability]

/-- A breaker with `x.com` at the threshold, last failure at time 1000. -/
def cbOpenDemo : CircuitBreaker := ⟨[("x.com", 5)], [("x.com", 1000)], 5, 60000⟩

/-- Concrete instantiation of `wrap_breaker_open_extends` at time 1000 with
`x.com` open. -/
theorem wrap_breaker_open_extends_witness :
    wrap ⟨3, true⟩ cbOpenDemo 1000 ⟨"https://x.com/a", some "x.com"⟩
      (fun _ => (.ok () : Except Thrown Unit)) [] =
      .ok ⟨.failure ⟨.http_error, breakerOpenMsg, false⟩ ⟨"x.com", 1000⟩,
        cbOpenDemo.recordFailure 1000 "x.com", 0, 1⟩
    ∧ (cbOpenDemo.recordFailure 1000 "x.com").failCount "x.com"
        = cbOpenDemo.failCount "x.com" + 1
    ∧ (cbOpenDemo.recordFailure 1000 "x.com").lastFail "x.com" = 1000 :=
  wrap_breaker_open_extends Unit cbOpenDemo 1000 3 ⟨"https://x.com/a", some "x.com"⟩
    (fun _ => .ok ()) [] (by decide) (by decide)

theorem fieldLower_error_shape (f : JSField) {t : Thrown}
    (h : fieldLower f = .error t) : ∃ s, t = .typeError s := by
  cases f with
  | absent => simp [fieldLower] at h
  | strF s => simp [fieldLower] at h
  | nonString b =>
    simp [fieldLower] at h
    exact ⟨_, h.symm⟩

theorem getCanRetry_error_shape (x : Thrown) {t : Thrown}
    (h : getCanRetry x = .error t) : ∃ s, t = .typeError s := by
  cases x <;> simp [getCanRetry] at h
  exact ⟨_, h.symm⟩

theorem errorClassification_ok_of_fields (e : Thrown) (s1 s2 : String)
    (hm : fieldLower e.msgField = .ok s1) (hc : fieldLower e.codeField = .ok s2) :
    ∃ oc, errorClassification (some e) = .ok oc := by
  by_cases ht : e.truthy = true
  · simp only [errorClassification, ht, if_true, hm, hc]
    split
    · exact ⟨_, rfl⟩
    · split
      · exact ⟨_, rfl⟩
      · split
        · exact ⟨_, rfl⟩
        · exact ⟨_, rfl⟩
  · simp [errorClassification, ht]

theorem errorClassification_error_shape (e? : Option Thrown) {t : Thrown}
    (h : errorClassification e? = .error t) : ∃ s, t = .typeError s := by
  cases e? with
  | none => simp [errorClassification] at h
  | some e =>
    by_cases ht : e.truthy = true
    · cases hm : fieldLower e.msgField with
      | error t1 =>
        have heq : errorClassification (some e) = .error t1 := by
          simp [errorClassification, ht, hm]
        rw [heq] at h
        cases h
        exact fieldLower_error_shape e.msgField hm
      | ok s1 =>
        cases hc : fieldLower e.codeField with
        | error t2 =>
          have heq : errorClassification (some e) = .error t2 := by
            simp [errorClassification, ht, hm, hc]
          rw [heq] at h
          cases h
          exact fieldLower_error_shape e.codeField hc
        | ok s2 =>
          exfalso
          obtain ⟨oc, hoc⟩ := errorClassification_ok_of_fields e s1 s2 hm hc
          rw [hoc] at h
          cases h
    · simp [errorClassification, ht] at h

theorem contentClassification_error_shape (c : JSField) {t : Thrown}
    (h : contentClassification c = .error t) : ∃ s, t = .typeError s := by
  cases c with
  | absent => simp [contentClassification] at h
  | nonString b =>
    simp only [contentClassification] at h
    split at h
    · cases h
      exact ⟨_, rfl⟩
    · cases h
  | strF s =>
    simp only [contentClassification] at h
    split at h
    · cases h
    · split at h <;> try cases h
      split at h <;> try cases h
      split at h <;> cases h

theorem classifyError_error_shape (e? : Option Thrown) (r : Option Nat) (c : JSField)
    {t : Thrown} (h : classifyError e? r c = .error t) : ∃ s, t = .typeError s := by
  unfold classifyError at h
  cases hsc : statusClassification r with
  | some cls => rw [hsc] at h; cases h
  | none =>
    rw [hsc] at h
    cases hec : errorClassification e? with
    | error t1 =>
      rw [hec] at h
      cases h
      exact errorClassification_error_shape e? hec
    | ok oc =>
      rw [hec] at h
      cases oc with
      | some cls => cases h
      | none =>
        cases hcc : contentClassification c with
        | error t2 =>
          rw [hcc] at h
          cases h
          exact contentClassification_error_shape c hcc
        | ok oc2 =>
          rw [hcc] at h
          cases oc2 with
          | some cls => cases h
          | none => cases h

theorem innerCatch_ok_shape (e : Thrown) {v : Thrown} (h : innerCatch e = .ok v) :
    ∃ t m, v = .scrapingError t m e := by
  unfold innerCatch at h
  split at h
  · cases h
  · cases hcl : classifyError (some e) e.responseField e.contentField with
    | error t1 => rw [hcl] at h; cases h
    | ok cls =>
      rw [hcl] at h
      cases h
      exact ⟨cls.type, cls.message, rfl⟩

theorem innerCatch_error_shape (e : Thrown) {t : Thrown} (h : innerCatch e = .error t) :
    ∃ s, t = .typeError s := by
  unfold innerCatch at h
  split at h
  · cases h
    exact ⟨_, rfl⟩
  · cases hcl : classifyError (some e) e.responseField e.contentField with
    | error t1 =>
      rw [hcl] at h
      cases h
      exact classifyError_error_shape _ _ _ hcl
    | ok cls => rw [hcl] at h; cases h

/-- Every value thrown out of `wrap`'s retry closure is either a
`ScrapingError` built by the inner catch or a runtime `TypeError`. -/
theorem wrappedOp_error_shape {α : Type} (op : Nat → Except Thrown α) (n : Nat)
    {e : Thrown} (h : wrappedOp op n = .error e) :
    (∃ t m o, e = .scrapingError t m o) ∨ (∃ s, e = .typeError s) := by
  cases hop : op n with
  | ok v =>
    have heq : wrappedOp op n = .ok v := by simp [wrappedOp, hop]
    rw [heq] at h
    cases h
  | error e0 =>
    cases hic : innerCatch e0 with
    | ok se =>
      have heq : wrappedOp op n = .error se := by simp [wrappedOp, hop, hic]
      rw [heq] at h
      cases h
      obtain ⟨t, m, hm⟩ := innerCatch_ok_shape e0 hic
      exact .inl ⟨t, m, e0, hm⟩
    | error t1 =>
      have heq : wrappedOp op n = .error t1 := by simp [wrappedOp, hop, hic]
      rw [heq] at h
      cases h
      exact .inr (innerCatch_error_shape e0 hic)

/-- Every error escaping `retryAux` is either an error of the operation
itself or a `TypeError` raised by the `canRetry` read. -/
theorem retryAux_error_shape {α : Type} (op : Nat → Except Thrown α) :
    ∀ (m a : Nat) {e : Thrown}, (retryAux op a m).1 = .error e →
      (∃ n, op n = .error e) ∨ (∃ s, e = .typeError s) := by
  intro m
  induction m with
  | zero =>
    intro a e h
    cases hop : op a with
    | ok v =>
      have heq : retryAux op a 0 = (.ok v, 1) := by simp [retryAux, hop]
      rw [heq] at h
      cases h
    | error e0 =>
      have heq : retryAux op a 0 = (.error e0, 1) := by simp [retryAux, hop]
      rw [heq] at h
      cases h
      exact .inl ⟨a, hop⟩
  | succ k ih =>
    intro a e h
    cases hop : op a with
    | ok v =>
      have heq : retryAux op a (k + 1) = (.ok v, 1) := by simp [retryAux, hop]
      rw [heq] at h
      cases h
    | error e0 =>
      cases hcr : getCanRetry e0 with
      | error t =>
        have heq : retryAux op a (k + 1) = (.error t, 1) := by simp [retryAux, hop, hcr]
        rw [heq] at h
        cases h
        exact .inr (getCanRetry_error_shape e0 hcr)
      | ok b =>
        cases b with
        | false =>
          have heq : retryAux op a (k + 1) = (.error e0, 1) := by simp [retryAux, hop, hcr]
          rw [heq] at h
          cases h
          exact .inl ⟨a, hop⟩
        | true =>
          have heq : (retryAux op a (k + 1)).1 = (retryAux op (a + 1) k).1 := by
            simp [retryAux, hop, hcr]
          rw [heq] at h
          exact ih (a + 1) h

theorem classifyError_outer_ok (e : Thrown) (s1 s2 : String)
    (hm : fieldLower e.msgField = .ok s1) (hc : fieldLower e.codeField = .ok s2) :
    ∃ c, classifyError (some e) none (.strF "") = .ok c := by
  obtain ⟨oc, hoc⟩ := errorClassification_ok_of_fields e s1 s2 hm hc
  cases oc with
  | some c => exact ⟨c, by simp [classifyError, statusClassification, hoc]⟩
  | none =>
    refine ⟨defaultClassification (some e), ?_⟩
    simp [classifyError, statusClassification, hoc, contentClassification]

theorem ensureScrapingError_ok_of_shape {e : Thrown}
    (h : (∃ t m o, e = .scrapingError t m o) ∨ (∃ s, e = .typeError s)) :
    ∃ r, ensureScrapingError e = .ok r := by
  rcases h with ⟨t, m, o, rfl⟩ | ⟨s, rfl⟩
  · exact ⟨⟨t, m, o⟩, rfl⟩
  · obtain ⟨c, hcl⟩ := classifyError_outer_ok (.typeError s) (jsToLower s) "" rfl rfl
    exact ⟨⟨c.type, c.message, .typeError s⟩, by simp [ensureScrapingError, hcl]⟩

theorem wrap_never_rejects (α : Type) (opts : HandlerOptions) (cb : CircuitBreaker)
    (now : Nat) (u : Url) (op : Nat → Except Thrown α) (ctx : List (String × String)) :
    ∃ out, wrap opts cb now u op ctx = .ok out := by
  unfold wrap
  dsimp only
  by_cases hbc : (opts.enableCircuitBreaker && !cb.canAttempt now (extractDomain u)) = true
  · rw [if_pos hbc]
    exact ⟨_, rfl⟩
  · rw [if_neg hbc]
    rcases hr : retryWithBackoff (wrappedOp op) opts.maxRetries with ⟨res, n⟩
    cases res with
    | ok v => exact ⟨_, rfl⟩
    | error e =>
      dsimp only
      have h1 : (retryWithBackoff (wrappedOp op) opts.maxRetries).1 = .error e := by
        rw [hr]
      have hshape : (∃ t1 m o, e = .scrapingError t1 m o) ∨ (∃ s, e = .typeError s) := by
        rcases retryAux_error_shape (wrappedOp op) opts.maxRetries 0 h1 with ⟨n1, hn1⟩ | hs
        · exact wrappedOp_error_shape op n1 hn1
        · exact .inr hs
      obtain ⟨r, hr2⟩ := ensureScrapingError_ok_of_shape hshape
      rw [hr2]
      exact ⟨_, rfl⟩

/-- C1: for every url, every operation — including ones that throw non-Error
values such as strings, `null`, or plain objects — and any context, `wrap`
never throws: its promise always resolves, with either a success envelope
`{success: true, data, metadata}` or a failure envelope
`{success: false, error, metadata}`. -/
theorem wrap_never_throws (α : Type) (opts : HandlerOptions) (cb : CircuitBreaker)
    (now : Nat) (u : Url) (op : Nat → Except Thrown α) (ctx : List (String × String)) :
    ∃ out, wrap opts cb now u op ctx = .ok out ∧
      ((∃ d m, out.envelope = .success d m) ∨ (∃ e m, out.envelope = .failure e m)) := by
  obtain ⟨out, hout⟩ := wrap_never_rejects α opts cb now u op ctx
  refine ⟨out, hout, ?_⟩
  cases hev : out.envelope with
  | success d m => exact .inl ⟨d, m, rfl⟩
  | failure e m => exact .inr ⟨e, m, rfl⟩

/-- C3 (amended): `summary.successRate` is the JS division
`succeeded / total`; on the empty batch that division is `0/0 = NaN`, not 0,
while the `results` and `errors` arrays are indeed empty and the call still
resolves immediately. -/
theorem wrapBatch_successRate (α : Type) (opts : HandlerOptions) (cb : CircuitBreaker)
    (now : Nat) (items : List (BatchItem α)) (bopts : BatchOptions)
    (_hc : 0 < bopts.concurrency) :
    ∃ r, wrapBatch opts cb now items bopts = .ok r ∧
      r.successRate = jsDiv r.succeeded r.total ∧
      r.total = items.length ∧
      (items = [] → r.results = [] ∧ r.errors = [] ∧ r.successRate = JsNum.nan) := by
  refine ⟨_, rfl, rfl, rfl, ?_⟩
  intro hnil
  subst hnil
  exact ⟨rfl, rfl, rfl⟩

/-- Concrete instantiation of `wrapBatch_successRate` at the empty batch with
the default options. -/
theorem wrapBatch_successRate_witness :
    ∃ r, wrapBatch (α := Unit) handlerDefaults breaker0 0 [] batchDefaults = .ok r ∧
      r.successRate = jsDiv r.succeeded r.total ∧
      r.total = 0 ∧
      (([] : List (BatchItem Unit)) = [] →
        r.results = [] ∧ r.errors = [] ∧ r.successRate = JsNum.nan) :=
  wrapBatch_successRate Unit handlerDefaults breaker0 0 [] batchDefaults (by decide)

/-- C3 counterexample: on the empty batch the summary's `successRate` is
`NaN` (the JS result of `0 / 0`), not the 0 the claim requires. -/
theorem wrapBatch_empty_rate_cex :
    (wrapBatch (α := Unit) handlerDefaults breaker0 0 [] batchDefaults).map
        (fun r => r.successRate) = .ok JsNum.nan
    ∧ JsNum.nan ≠ JsNum.val 0 :=
  ⟨rfl, fun h => JsNum.noConfusion h⟩

/-- C4 (amended): `wrapBatch` never raises for any inputs (with a positive
concurrency), regardless of `continueOnError`: the `Error` thrown by the
per-item callback on the `continueOnError = false` path is absorbed by the
`Promise.allSettled` group barrier, so `wrapBatch` always resolves after
every group settles, with the summary counting every item. -/
theorem wrapBatch_never_raises (α : Type) (opts : HandlerOptions) (cb : CircuitBreaker)
    (now : Nat) (items : List (BatchItem α)) (bopts : BatchOptions)
    (_hc : 0 < bopts.concurrency) :
    ∃ r, wrapBatch opts cb now items bopts = .ok r ∧
      r.total = items.length ∧ r.succeeded = r.results.length ∧ r.failed = r.errors.length :=
  ⟨_, rfl, rfl, rfl, rfl⟩

/-- Concrete instantiation of `wrapBatch_never_raises` on a batch whose only
item fails, with `continueOnError = false`. -/
theorem wrapBatch_never_raises_witness :
    ∃ r, wrapBatch (α := Unit) handlerDefaults breaker0 0
        [⟨⟨"https://x.com/a", some "x.com"⟩, fun _ => .error enotfoundErr⟩]
        ⟨5, false, true⟩ = .ok r ∧
      r.total = 1 ∧ r.succeeded = r.results.length ∧ r.failed = r.errors.length :=
  wrapBatch_never_raises Unit handlerDefaults breaker0 0
    [⟨⟨"https://x.com/a", some "x.com"⟩, fun _ => .error enotfoundErr⟩]
    ⟨5, false, true⟩ (by decide)

/-- C4 counterexample: with `continueOnError = false` and an item whose
envelope fails, `wrapBatch` does not raise — it resolves (`.ok`) with the
failure recorded and counted (`failed = 1`), because the throw inside the
callback dies in `Promise.allSettled`'s settled statuses. -/
theorem wrapBatch_continueOnError_cex :
    (wrapBatch (α := Unit) handlerDefaults breaker0 0
        [⟨⟨"https://x.com/a", some "x.com"⟩, fun _ => .error enotfoundErr⟩]
        ⟨5, false, true⟩).map (fun r => (r.success, r.succeeded, r.failed, r.total))
      = .ok (false, 0, 1, 1) := by
  rfl
